import Mathlib

/-!
Verification development for `situlogger` (src/situlogger/__init__.py).

The repository has two components:
* `SituRotatingFileHandler` — a day-based rotating file handler that is safe
  across independent OS processes (exclusive-create, tolerate `EEXIST`,
  append-mode writes; no rename-based rotation);
* `JsonFormatter` — a `logging.Formatter` subclass that renders each log
  record as a JSON object.

The Python code is shallowly embedded below.  Python values that can appear
as log-record attributes or inside a structured message are modelled by the
inductive type `PyVal`; Python `dict`s (including `OrderedDict`) are modelled
as association lists with insert-or-replace update, which reproduces the
insertion-order/update-in-place semantics the code relies on.  Wall-clock
time is modelled as a natural number of seconds of local time, so that local
midnights are exactly the multiples of 86400.  The filesystem shared between
processes is modelled as a map from path to file contents plus an
environment-failure oracle used to model `OSError`s other than `EEXIST`.
-/

/-- Python runtime values as they occur in log records.  JSON-native shapes
(`None`, `str`, `int`, `bool`, `dict`, `list`) are modelled structurally;
non-native leaves carry the strings the source code extracts from them:
`datetime` carries `obj.isoformat()`, `tb` carries
`''.join(traceback.format_tb(obj))`, `exc` carries `str(obj)` of an
exception, `excInfo` carries the text `logging.Formatter.formatException`
renders for an `exc_info` tuple, and `other` carries `str(obj)` of any other
object. -/
inductive PyVal where
  | none
  | str (s : String)
  | int (n : Int)
  | bool (b : Bool)
  | dict (entries : List (String × PyVal))
  | list (elems : List PyVal)
  | datetime (iso : String)
  | tb (txt : String)
  | exc (msg : String)
  | excInfo (txt : String)
  | other (r : String)

/-- Python truthiness (`bool(v)`) for the shapes of `PyVal`: `None`, empty
strings, zero, `False` and empty containers are falsy, everything else is
truthy. -/
def truthy : PyVal → Bool
  | .none => false
  | .str s => !s.isEmpty
  | .int n => n != 0
  | .bool b => b
  | .dict l => !l.isEmpty
  | .list l => !l.isEmpty
  | .datetime _ => true
  | .tb _ => true
  | .exc _ => true
  | .excInfo _ => true
  | .other _ => true

/-- Whether a `PyVal` is a Python `str`. -/
def PyVal.isStr : PyVal → Bool
  | .str _ => true
  | _ => false

/-- Association-list lookup keyed by strings; models `d[k]` / `d.get(k)`
returning the first (and, for Python dicts, only) binding. -/
def alookup {α : Type} : List (String × α) → String → Option α
  | [], _ => Option.none
  | (k, v) :: rest, q => if k = q then some v else alookup rest q

/-- Python `d.get(k)`: the bound value, or `None` when the key is absent. -/
def dGet (d : List (String × PyVal)) (k : String) : PyVal :=
  (alookup d k).getD PyVal.none

/-- Python `d[k] = v` on a (ordered) dict: replace the value in place if the
key is present, otherwise append the binding at the end.  This is exactly the
insertion-order behaviour of `dict` / `OrderedDict` that `JsonFormatter`
relies on for field order. -/
def dSet {α : Type} : List (String × α) → String → α → List (String × α)
  | [], k, v => [(k, v)]
  | (k', v') :: rest, k, v =>
    if k' = k then (k, v) :: rest else (k', v') :: dSet rest k v

/-- Python `d.update(other)`: set every binding of `other` in order. -/
def dUpdate (d other : List (String × PyVal)) : List (String × PyVal) :=
  other.foldl (fun t kv => dSet t kv.1 kv.2) d

/-- Keys of an association list, in order. -/
def keys {α : Type} (d : List (String × α)) : List String :=
  d.map Prod.fst

/-- Number of bindings of a given key (used to state that a file exists
exactly once in the modelled filesystem). -/
def countKey {α : Type} : List (String × α) → String → Nat
  | [], _ => 0
  | (k, _) :: rest, q => (if k = q then 1 else 0) + countKey rest q

/-- Python `key.startswith('_')` for string keys: the first character is an
underscore. -/
def startsUnderscore (s : String) : Bool :=
  match s.data with
  | [] => false
  | c :: _ => c = '_'

/-- RESERVED_ATTRS from the source: the natural `LogRecord` attributes that
are never copied into the output as extras. -/
def RESERVED_ATTRS : List String :=
  ["args", "asctime", "created", "exc_info", "exc_text", "filename",
   "funcName", "levelname", "levelno", "lineno", "module",
   "msecs", "message", "msg", "name", "pathname", "process",
   "processName", "relativeCreated", "stack_info", "thread", "threadName"]

/-- The guard of the loop in `merge_record_extra`:
`key not in reserved and not key.startswith('_')`. -/
def mergeable (reserved : List String) (k : String) : Bool :=
  !reserved.contains k && !startsUnderscore k

/-- merge_record_extra from the source: fold over `record.__dict__` in
iteration order; for every key that is not reserved and does not start with
an underscore, set `target[key] = value`.  (`reserved` plays the role of the
`reserved` dict/list parameter; membership is all the code uses.) -/
def merge_record_extra (record target : List (String × PyVal))
    (reserved : List String) : List (String × PyVal) :=
  record.foldl
    (fun tgt kv =>
      if mergeable reserved kv.1 then dSet tgt kv.1 kv.2 else tgt)
    target

/-! ## JSON serialization

`json.dumps` is modelled below.  String escaping covers the escapes the
claims can reach (quote, backslash and ASCII control shorthands); the
concrete inputs used in theorems only contain plain ASCII.  `json.dumps`
raises `TypeError` on a value it cannot natively represent **unless** a
`default=` fallback was passed; in this source no fallback is ever passed
(see `jsonify_log_record`). -/

/-- Escape one character for a JSON string literal. -/
def escChar : Char → String
  | '"' => "\\\""
  | '\\' => "\\\\"
  | '\n' => "\\n"
  | '\t' => "\\t"
  | '\r' => "\\r"
  | c => String.singleton c

/-- Render a JSON string literal. -/
def jsonQuote (s : String) : String :=
  "\"" ++ String.join (s.data.map escChar) ++ "\""

mutual

/-- Model of `json.dumps(v)` with no `default=` and no `cls=`: JSON-native
values are rendered with the default separators `", "` and `": "`; any other
value raises `TypeError`, modelled as `Except.error ()`. -/
def json_dumps : PyVal → Except Unit String
  | .none => .ok "null"
  | .str s => .ok (jsonQuote s)
  | .int n => .ok (toString n)
  | .bool b => .ok (if b then "true" else "false")
  | .dict l => do
    let parts ← json_dumps_entries l
    return "\x7b" ++ String.intercalate ", " parts ++ "\x7d"
  | .list l => do
    let parts ← json_dumps_elems l
    return "[" ++ String.intercalate ", " parts ++ "]"
  | .datetime _ => .error ()
  | .tb _ => .error ()
  | .exc _ => .error ()
  | .excInfo _ => .error ()
  | .other _ => .error ()

/-- Serialize the members of a JSON object. -/
def json_dumps_entries : List (String × PyVal) → Except Unit (List String)
  | [] => .ok []
  | (k, v) :: rest => do
    let s ← json_dumps v
    let r ← json_dumps_entries rest
    return (jsonQuote k ++ ": " ++ s) :: r

/-- Serialize the members of a JSON array. -/
def json_dumps_elems : List PyVal → Except Unit (List String)
  | [] => .ok []
  | v :: rest => do
    let s ← json_dumps v
    let r ← json_dumps_elems rest
    return s :: r

end

/-- Python `str(v)` for the leaves the code can feed to `str` (containers
carry an approximation; no claim depends on the textual form of a
container). -/
def pyStr : PyVal → String
  | .none => "None"
  | .str s => s
  | .int n => toString n
  | .bool b => if b then "True" else "False"
  | .dict _ => "<dict>"
  | .list _ => "<list>"
  | .datetime iso => iso
  | .tb t => t
  | .exc m => m
  | .excInfo t => t
  | .other r => r

/-- The `_default_json_handler` closure installed by `JsonFormatter.__init__`
when neither `json_encoder` nor `json_default` is supplied: dates/times to
their ISO format, tracebacks to the joined-and-stripped stack text,
exceptions to `"Exception: <str>"`, anything else to `str(obj)`. -/
def _default_json_handler : PyVal → PyVal
  | .datetime iso => .str iso
  | .tb t => .str t.trim
  | .exc m => .str ("Exception: " ++ m)
  | v => .str (pyStr v)

mutual

/-- Modelled from the spec (and the source's own docstring): `json.dumps`
with `default=d`, i.e. the serializer the documentation promises —
non-native values are passed through the fallback `d` once and its result is
serialized.  The source never actually wires `json_default` into
serialization; this definition exists to state what the documented behaviour
would produce. -/
def json_dumps_default (d : PyVal → PyVal) : PyVal → Except Unit String
  | .none => .ok "null"
  | .str s => .ok (jsonQuote s)
  | .int n => .ok (toString n)
  | .bool b => .ok (if b then "true" else "false")
  | .dict l => do
    let parts ← json_dumps_default_entries d l
    return "\x7b" ++ String.intercalate ", " parts ++ "\x7d"
  | .list l => do
    let parts ← json_dumps_default_elems d l
    return "[" ++ String.intercalate ", " parts ++ "]"
  | v => json_dumps (d v)

/-- Serialize object members with a fallback for non-native values. -/
def json_dumps_default_entries (d : PyVal → PyVal) :
    List (String × PyVal) → Except Unit (List String)
  | [] => .ok []
  | (k, v) :: rest => do
    let s ← json_dumps_default d v
    let r ← json_dumps_default_entries d rest
    return (jsonQuote k ++ ": " ++ s) :: r

/-- Serialize array members with a fallback for non-native values. -/
def json_dumps_default_elems (d : PyVal → PyVal) :
    List PyVal → Except Unit (List String)
  | [] => .ok []
  | v :: rest => do
    let s ← json_dumps_default d v
    let r ← json_dumps_default_elems d rest
    return s :: r

end

/-! ## Format-pattern parsing

`JsonFormatter.parse` runs `re.findall(r'\((.+?)\)', self._fmt)`.  The regex
scans left to right; at each `(` it lazily consumes at least one character
(`.` matches anything except a newline, including `(` and `)` in the
positions lazy matching allows) until the first viable `)`, emits the group,
and resumes after the match.  When the lazy scan runs into a newline or the
end of the pattern, no match starting at or before that scan can succeed
((a) a group cannot span a newline, and (b) between the failed `(` and the
failure point there is no viable `)` for any later start either), so
scanning resumes after the failure point.  `findall` below is that scanner
written as one structural pass with an explicit in-group state. -/

/-- Single pass of `re.findall(r'\((.+?)\)', ·)` over the pattern's
characters.  `st = Option.none` means we are outside any group; `st = some
acc` means we are inside a group opened by `(` with the (reversed)
characters `acc` consumed so far by the lazy `.+?`. -/
def findall (st : Option (List Char)) : List Char → List String
  | [] => []
  | c :: cs =>
    match st with
    | Option.none =>
      if c = '(' then findall (some []) cs else findall Option.none cs
    | some acc =>
      if c = ')' then
        if acc.isEmpty then findall (some [c]) cs
        else String.mk acc.reverse :: findall Option.none cs
      else if c = '\n' then findall Option.none cs
      else findall (some (c :: acc)) cs

/-! ## JsonFormatter -/

/-- JsonFormatter state after `__init__`.  `fmt` is `self._fmt` (the
format-pattern string handed to `logging.Formatter.__init__`); `prefixStr`
is `self.prefix`; `json_default` is the fallback installed by `__init__`
(the `_default_json_handler` closure when no custom encoder was given) —
note the source stores it but never passes it to the serializer;
`formatTime` models the external collaborator
`logging.Formatter.formatTime(record, datefmt)` as a function of the
record's `__dict__`. -/
structure JsonFormatter where
  fmt : String
  prefixStr : String
  json_default : PyVal → PyVal
  formatTime : List (String × PyVal) → String

/-- `JsonFormatter.parse`: extract the parenthesised field names from the
format pattern. -/
def JsonFormatter.parse (f : JsonFormatter) : List String :=
  findall Option.none f.fmt.data

/-- `self._required_fields`, computed once in `__init__`. -/
def JsonFormatter.required_fields (f : JsonFormatter) : List String :=
  f.parse

/-- `self._skip_fields`: the union (as membership) of the required fields
and `RESERVED_ATTR_HASH`, built in `__init__` by
`dict(zip(...)).update(RESERVED_ATTR_HASH)`. -/
def JsonFormatter.skip_fields (f : JsonFormatter) : List String :=
  f.required_fields ++ RESERVED_ATTRS

/-- Models the external collaborator `logging.LogRecord.getMessage` for
records without printf-style arguments: `str(self.msg)`.  (No claim depends
on `%`-argument substitution; records used in theorems carry `args = None`.)
-/
def getMessage (recordDict : List (String × PyVal)) : PyVal :=
  .str (pyStr (dGet recordDict "msg"))

/-- Models the external collaborator `logging.Formatter.formatException`:
an `exc_info` tuple is embedded as `PyVal.excInfo` carrying the text this
call renders for it. -/
def formatException : PyVal → String
  | .excInfo t => t
  | v => pyStr v

/-- Whether `record.msg` is a Python dict (`isinstance(record.msg, dict)`).
-/
def msgIsDict (recordDict : List (String × PyVal)) : Bool :=
  match dGet recordDict "msg" with
  | .dict _ => true
  | _ => false

/-- The entries of `record.msg` when it is a dict (the "message payload"),
and `[]` otherwise. -/
def msgPayload (recordDict : List (String × PyVal)) : List (String × PyVal) :=
  match dGet recordDict "msg" with
  | .dict entries => entries
  | _ => []

/-- The first loop of `add_fields`: for every required field in order,
`log_record[field] = record.__dict__.get(field)`. -/
def set_required_fields (recordDict : List (String × PyVal))
    (fields : List String) (log_record : List (String × PyVal)) :
    List (String × PyVal) :=
  fields.foldl (fun lr field => dSet lr field (dGet recordDict field))
    log_record

/-- `JsonFormatter.add_fields(log_record, record, message_dict)`: first every
required field is written from `record.__dict__.get(field)` in order, then
`log_record.update(message_dict)`, then `merge_record_extra(record,
log_record, reserved=self._skip_fields)`. -/
def JsonFormatter.add_fields (f : JsonFormatter)
    (log_record recordDict message_dict : List (String × PyVal)) :
    List (String × PyVal) :=
  merge_record_extra recordDict
    (dUpdate (set_required_fields recordDict f.required_fields log_record)
      message_dict)
    f.skip_fields

/-- `JsonFormatter.process_log_record`: identity hook. -/
def process_log_record (log_record : List (String × PyVal)) :
    List (String × PyVal) :=
  log_record

/-- `JsonFormatter.jsonify_log_record`: `self.json_serializer(log_record)`.
`__init__` hard-codes `self.json_serializer = json.dumps` (the
`json_serializer` keyword is never popped from `kwargs`), and neither
`self.json_default` nor `self.json_encoder` is passed to the call, so this
is a bare `json.dumps` of the ordered mapping. -/
def jsonify_log_record (log_record : List (String × PyVal)) :
    Except Unit String :=
  json_dumps (.dict log_record)

/-- State of `record.__dict__` after the first statements of `format`: when
`record.msg` is a dict, `record.message = None` (the plain-message field is
suppressed); otherwise `record.message = record.getMessage()`. -/
def format_rd1 (rd0 : List (String × PyVal)) : List (String × PyVal) :=
  if msgIsDict rd0 then dSet rd0 "message" PyVal.none
  else dSet rd0 "message" (getMessage rd0)

/-- State of `record.__dict__` after the `asctime` step: when `"asctime"` is
among the required fields, `record.asctime = self.formatTime(record,
self.datefmt)`. -/
def format_rd2 (f : JsonFormatter) (rd0 : List (String × PyVal)) :
    List (String × PyVal) :=
  if f.required_fields.contains "asctime" then
    dSet (format_rd1 rd0) "asctime" (.str (f.formatTime (format_rd1 rd0)))
  else format_rd1 rd0

/-- `message_dict` after the first exception statement: when
`record.exc_info` is truthy and `message_dict.get('exc_info')` is falsy,
`message_dict['exc_info'] = self.formatException(record.exc_info)`. -/
def format_md1 (f : JsonFormatter) (rd0 : List (String × PyVal)) :
    List (String × PyVal) :=
  if truthy (dGet (format_rd2 f rd0) "exc_info") &&
      !truthy (dGet (msgPayload rd0) "exc_info") then
    dSet (msgPayload rd0) "exc_info"
      (.str (formatException (dGet (format_rd2 f rd0) "exc_info")))
  else msgPayload rd0

/-- `message_dict` after the second exception statement: when
`message_dict.get('exc_info')` is (still) falsy and `record.exc_text` is
truthy, `message_dict['exc_info'] = record.exc_text`. -/
def format_md2 (f : JsonFormatter) (rd0 : List (String × PyVal)) :
    List (String × PyVal) :=
  if !truthy (dGet (format_md1 f rd0) "exc_info") &&
      truthy (dGet (format_rd2 f rd0) "exc_text") then
    dSet (format_md1 f rd0) "exc_info" (dGet (format_rd2 f rd0) "exc_text")
  else format_md1 f rd0

/-- Final state of `record.__dict__`: when `record.msg` is a dict,
`message_dict` *is* that dict (aliased, not copied), so the `exc_info`
insertions above are visible through `record.msg` after the call. -/
def format_rd3 (f : JsonFormatter) (rd0 : List (String × PyVal)) :
    List (String × PyVal) :=
  if msgIsDict rd0 then dSet (format_rd2 f rd0) "msg" (.dict (format_md2 f rd0))
  else format_rd2 f rd0

/-- Core of `JsonFormatter.format(record)`: performs every step up to and
including `process_log_record`, with the mutation of the record object and
of the caller's message mapping made explicit.  Returns
`(log_record, message_dict, record.__dict__)` — the assembled ordered
mapping, the final message payload, and the post-call state of
`record.__dict__`. -/
def JsonFormatter.formatCore (f : JsonFormatter)
    (rd0 : List (String × PyVal)) :
    List (String × PyVal) × List (String × PyVal) × List (String × PyVal) :=
  (process_log_record
      (f.add_fields [] (format_rd3 f rd0) (format_md2 f rd0)),
   format_md2 f rd0, format_rd3 f rd0)

/-- `JsonFormatter.format(record)`: serialize the assembled mapping and
prepend the prefix; also exposes the post-call state of `record.__dict__`
(the frame effect).  The first component is `Except.error ()` when
`json.dumps` raises `TypeError`. -/
def JsonFormatter.format (f : JsonFormatter) (rd0 : List (String × PyVal)) :
    Except Unit String × List (String × PyVal) :=
  let core := f.formatCore rd0
  ((jsonify_log_record core.1).map (fun s => f.prefixStr ++ s), core.2.2)

/-! ## SituRotatingFileHandler

Local wall-clock time is a `Nat` of seconds; the local calendar day of `t`
is `t / 86400` and local midnights are the multiples of 86400, so
`datetime.now().replace(hour=0, minute=0, second=0, microsecond=0)` is
`t - t % 86400` and `time.mktime` is the identity.  The filesystem shared
by the processes maps paths to contents; `errs` is an oracle giving the
`errno` of an environment-caused `OSError` (permissions, missing directory,
disk full, …) for the exclusive create at a path, or `Option.none` when the
only possible failure is `EEXIST`. -/

/-- The shared filesystem. -/
structure FS where
  files : List (String × String)
  errs : String → Option Nat

/-- Linux `errno.EEXIST`. -/
def EEXIST : Nat := 17

/-- Append `s` to the file at `p`, creating it when absent (the handler only
calls this on paths it has opened). -/
def appendAssoc : List (String × String) → String → String → List (String × String)
  | [], p, s => [(p, s)]
  | (q, c) :: rest, p, s =>
    if q = p then (q, c ++ s) :: rest else (q, c) :: appendAssoc rest p s

/-- Append bytes to a file of the filesystem. -/
def FS.append (fs : FS) (p s : String) : FS :=
  { fs with files := appendAssoc fs.files p s }

/-- Model of `os.open(p, os.O_CREAT | os.O_EXCL, 0o644)` followed by
`os.close`: an environment failure raises its errno; an existing file raises
`EEXIST`; otherwise the file is created empty.  The creation is atomic — in
a race between processes exactly one create sees the file absent. -/
def osCreateExcl (fs : FS) (p : String) : Except Nat FS :=
  match fs.errs p with
  | some e => .error e
  | Option.none =>
    if (alookup fs.files p).isSome then .error EEXIST
    else .ok { fs with files := fs.files ++ [(p, "")] }

/-- Model of `open(p, 'a')` as used by `logging.FileHandler._open`: position
at the end, never truncate, create the file when absent. -/
def openAppend (fs : FS) (p : String) : FS :=
  if (alookup fs.files p).isSome then fs
  else { fs with files := fs.files ++ [(p, "")] }

/-- `SituRotatingFileHandler._next_rotate_at()`: `time.mktime` of local
midnight of the day following `now`. -/
def next_rotate_at (now : Nat) : Nat :=
  (now - now % 86400) + 86400

/-- The spec's words for the deadline: "local midnight of the day after"
`now`, stated directly as the start of the next calendar day.  Kept separate
from `next_rotate_at` (which is transcribed from the source) so their
agreement is a theorem, not a definition. -/
def midnightAfter (now : Nat) : Nat :=
  (now / 86400 + 1) * 86400

/-- The day file path `"{0}.{1}".format(self._filename,
now.strftime('%Y-%m-%d'))`.  The local calendar date is modelled by the day
index `now / 86400`; distinct days yield distinct suffixes. -/
def log_today (filename : String) (now : Nat) : String :=
  filename ++ "." ++ toString (now / 86400)

/-- `SituRotatingFileHandler._open()`: exclusively create today's file,
swallow `EEXIST` (another process already created it), propagate any other
`OSError`, then open the path in append mode. -/
def situ_open (fs : FS) (filename : String) (now : Nat) :
    Except Nat (FS × String) :=
  match osCreateExcl fs (log_today filename now) with
  | .ok fs1 => .ok (openAppend fs1 (log_today filename now), log_today filename now)
  | .error e =>
    if e = EEXIST then
      .ok (openAppend fs (log_today filename now), log_today filename now)
    else .error e

/-- Handler state: `filename` is `self._filename`, `rotate_at` is
`self._rotate_at`, and `stream` is the open file handle, modelled by the
path it is open on (`Option.none` when closed). -/
structure SituRotatingFileHandler where
  filename : String
  rotate_at : Nat
  stream : Option String

/-- `SituRotatingFileHandler.__init__(filename)`: record the deadline for
the next local midnight, then `logging.FileHandler.__init__(filename,
mode='a')` opens today's file via the overridden `_open`. -/
def SituRotatingFileHandler.construct (fs : FS) (filename : String)
    (now : Nat) : Except Nat (SituRotatingFileHandler × FS) :=
  (situ_open fs filename now).map fun pr =>
    ({ filename := filename, rotate_at := next_rotate_at now,
       stream := some pr.2 }, pr.1)

/-- `SituRotatingFileHandler.emit(record)`: when `time.time()` is past
`self._rotate_at`, recompute the deadline and `close()` the stream; then
`logging.FileHandler.emit` reopens the stream via `_open` when it is closed
and appends the formatted line. -/
def SituRotatingFileHandler.emit (h : SituRotatingFileHandler) (fs : FS)
    (now : Nat) (line : String) :
    Except Nat (SituRotatingFileHandler × FS) :=
  let h1 :=
    if h.rotate_at < now then
      { h with rotate_at := next_rotate_at now, stream := Option.none }
    else h
  match h1.stream with
  | some p => .ok (h1, fs.append p line)
  | Option.none =>
    (situ_open fs h1.filename now).map fun pr =>
      ({ h1 with stream := some pr.2 }, (pr.1).append pr.2 line)

/-- Run an interleaving of emits by two handler instances (simulating two
processes) over the shared filesystem: `true` tags a write by the first
instance, `false` by the second. -/
def runPair (hA hB : SituRotatingFileHandler) (fs : FS) (now : Nat) :
    List (Bool × String) →
    Except Nat (SituRotatingFileHandler × SituRotatingFileHandler × FS)
  | [] => .ok (hA, hB, fs)
  | (true, m) :: rest =>
    (hA.emit fs now m).bind fun pr => runPair pr.1 hB pr.2 now rest
  | (false, m) :: rest =>
    (hB.emit fs now m).bind fun pr => runPair hA pr.1 pr.2 now rest

/-- The concatenation, in interleaving order, of the lines written by the
two instances. -/
def concatWrites (ws : List (Bool × String)) : String :=
  ws.foldl (fun acc w => acc ++ w.2) ""

/-- Total number of bytes handed to the two instances. -/
def totalBytes (ws : List (Bool × String)) : Nat :=
  (ws.map (fun w => w.2.length)).sum

/-- Apply a sequence of interleaved appends to one path. -/
def foldAppend (fs : FS) (p : String) (ws : List (Bool × String)) : FS :=
  ws.foldl (fun fs w => fs.append p w.2) fs

/-! ## Well-formed format patterns (for C9)

A format pattern with unambiguous parenthesised field names is modelled as a
list of segments: literal text without `(`, and fields `(<name>)` whose
names are nonempty and contain neither `)` nor a newline. -/

/-- A segment of a format pattern. -/
inductive Seg where
  | lit (s : String)
  | field (name : String)

/-- Render one segment back to pattern text. -/
def renderSeg : Seg → String
  | .lit s => s
  | .field n => "(" ++ n ++ ")"

/-- Render a segment list to a pattern string. -/
def renderSegs : List Seg → String
  | [] => ""
  | s :: rest => renderSeg s ++ renderSegs rest

/-- The field names of a pattern, in first-seen order. -/
def segFields : List Seg → List String
  | [] => []
  | .lit _ :: rest => segFields rest
  | .field n :: rest => n :: segFields rest

/-- Well-formedness: literal text contains no `(`; a field name is nonempty
and contains neither `)` nor a newline. -/
def segOk : Seg → Prop
  | .lit s => ∀ c ∈ s.data, c ≠ '('
  | .field n => n.data ≠ [] ∧ ∀ c ∈ n.data, c ≠ ')' ∧ c ≠ '\n'

/-! ## Concrete instances used by the claims -/

/-- A formatter constructed with the pattern `"(message)"` and default
options. -/
def fmtA : JsonFormatter :=
  { fmt := "(message)", prefixStr := "",
    json_default := _default_json_handler, formatTime := fun _ => "T" }

/-- A formatter constructed with the pattern
`"(asctime) (levelname) (message)"` and default options; `formatTime`
renders the fixed instant used by the concrete scenarios. -/
def fmtB : JsonFormatter :=
  { fmt := "(asctime) (levelname) (message)", prefixStr := "",
    json_default := _default_json_handler,
    formatTime := fun _ => "2020-03-14 00:00:00,123" }

/-- A formatter whose pattern has no parenthesised fields. -/
def fmtNoFields : JsonFormatter :=
  { fmt := "no fields here", prefixStr := "",
    json_default := _default_json_handler, formatTime := fun _ => "T" }

/-- Record for C1: a structured message holding a `datetime.date`. -/
def rdC1 : List (String × PyVal) :=
  [("name", .str "root"), ("msg", .dict [("ts", .datetime "2020-03-14")]),
   ("levelname", .str "INFO"), ("exc_info", PyVal.none),
   ("exc_text", PyVal.none)]

/-- Record for C5: the payload maps `"user"` to `"alice"` while an extra
attribute of the same name carries `"bob"`. -/
def rdC5 : List (String × PyVal) :=
  [("name", .str "root"), ("msg", .dict [("user", .str "alice")]),
   ("levelname", .str "INFO"), ("user", .str "bob"),
   ("exc_info", PyVal.none), ("exc_text", PyVal.none)]

/-- Record for C6: the concrete structured payload of the spec's scenario. -/
def rdC6 : List (String × PyVal) :=
  [("name", .str "root"),
   ("msg", .dict [("user", .str "alice"), ("action", .str "login")]),
   ("args", PyVal.none), ("levelname", .str "INFO"), ("levelno", .int 20),
   ("created", .int 1584144000), ("exc_info", PyVal.none),
   ("exc_text", PyVal.none)]

/-- Record for C7: one genuine extra, one underscore-private attribute. -/
def rdC7 : List (String × PyVal) :=
  [("name", .str "root"), ("msg", .str "hello"),
   ("levelname", .str "INFO"), ("user", .str "bob"), ("_private", .int 1),
   ("exc_info", PyVal.none), ("exc_text", PyVal.none)]

/-- Record for C8: exception info is attached, but the payload already
carries a structured (truthy) `exc_info` of its own. -/
def rdC8 : List (String × PyVal) :=
  [("name", .str "root"),
   ("msg", .dict [("exc_info", .dict [("type", .str "ValueError")])]),
   ("levelname", .str "INFO"), ("exc_info", .excInfo "Traceback: boom"),
   ("exc_text", PyVal.none)]

/-- Record for C8's cached-text branch: no exception info, but the framework
already produced `exc_text`. -/
def rdC8b : List (String × PyVal) :=
  [("name", .str "root"), ("msg", .dict [("user", .str "alice")]),
   ("levelname", .str "INFO"), ("exc_info", PyVal.none),
   ("exc_text", .str "cached trace")]

/-- The segment decomposition of the pattern
`"(asctime) (levelname) (message)"` (for C9). -/
def segsC9 : List Seg :=
  [Seg.field "asctime", Seg.lit " ", Seg.field "levelname", Seg.lit " ",
   Seg.field "message"]

/-- Record for C10: dict message plus attached exception info. -/
def rdC10 : List (String × PyVal) :=
  [("name", .str "root"), ("msg", .dict [("user", .str "alice")]),
   ("levelname", .str "INFO"), ("exc_info", .excInfo "Traceback: boom"),
   ("exc_text", PyVal.none)]

/-- Record with a plain-string message (for the non-dict branch of C10). -/
def rdC10b : List (String × PyVal) :=
  [("name", .str "root"), ("msg", .str "hello"),
   ("levelname", .str "INFO"), ("exc_info", PyVal.none),
   ("exc_text", PyVal.none)]

/-! ## Association-list lemmas -/

theorem alookup_dSet_self {α : Type} (d : List (String × α)) (k : String)
    (v : α) : alookup (dSet d k v) k = some v := by
  induction d with
  | nil => simp [dSet, alookup]
  | cons hd tl ih =>
    obtain ⟨k', v'⟩ := hd
    by_cases h : k' = k
    · subst h; simp [dSet, alookup]
    · simp [dSet, alookup, h, ih]

theorem alookup_dSet_ne {α : Type} (d : List (String × α)) (k q : String)
    (v : α) (h : q ≠ k) : alookup (dSet d k v) q = alookup d q := by
  induction d with
  | nil => simp [dSet, alookup, Ne.symm h]
  | cons hd tl ih =>
    obtain ⟨k', v'⟩ := hd
    by_cases h' : k' = k
    · subst h'; simp [dSet, alookup, Ne.symm h]
    · by_cases hq : k' = q
      · subst hq; simp [dSet, alookup, h']
      · simp [dSet, alookup, h', hq, ih]

theorem dGet_dSet_self (d : List (String × PyVal)) (k : String) (v : PyVal) :
    dGet (dSet d k v) k = v := by
  simp [dGet, alookup_dSet_self]

theorem dGet_dSet_ne (d : List (String × PyVal)) (k q : String) (v : PyVal)
    (h : q ≠ k) : dGet (dSet d k v) q = dGet d q := by
  simp [dGet, alookup_dSet_ne _ _ _ _ h]

theorem mem_keys_dSet {α : Type} (d : List (String × α)) (k q : String)
    (v : α) : q ∈ keys (dSet d k v) ↔ q ∈ keys d ∨ q = k := by
  induction d with
  | nil => simp [dSet, keys]
  | cons hd tl ih =>
    obtain ⟨k', v'⟩ := hd
    by_cases h : k' = k
    · subst h; simp [dSet, keys]; tauto
    · simp [dSet, keys, h] at ih ⊢; rw [ih]; tauto

theorem keys_cons {α : Type} (hd : String × α) (tl : List (String × α)) :
    keys (hd :: tl) = hd.1 :: keys tl := rfl

theorem dSet_cons_eq {α : Type} (k : String) (v' v : α)
    (tl : List (String × α)) : dSet ((k, v') :: tl) k v = (k, v) :: tl := by
  simp [dSet]

theorem dSet_cons_ne {α : Type} (k' k : String) (v' v : α)
    (tl : List (String × α)) (h : k' ≠ k) :
    dSet ((k', v') :: tl) k v = (k', v') :: dSet tl k v := by
  simp [dSet, h]

theorem nodup_keys_dSet {α : Type} (d : List (String × α)) (k : String)
    (v : α) (h : (keys d).Nodup) : (keys (dSet d k v)).Nodup := by
  induction d with
  | nil => simp [dSet, keys]
  | cons hd tl ih =>
    obtain ⟨k', v'⟩ := hd
    rw [keys_cons, List.nodup_cons] at h
    by_cases hk : k' = k
    · subst hk
      rw [dSet_cons_eq, keys_cons, List.nodup_cons]
      exact ⟨h.1, h.2⟩
    · rw [dSet_cons_ne _ _ _ _ _ hk, keys_cons, List.nodup_cons]
      refine ⟨?_, ih h.2⟩
      intro hmem
      rcases (mem_keys_dSet tl k k' v).mp hmem with h1 | h1
      · exact h.1 h1
      · exact hk h1

theorem dUpdate_cons (hd : String × PyVal) (tl : List (String × PyVal))
    (d : List (String × PyVal)) :
    dUpdate d (hd :: tl) = dUpdate (dSet d hd.1 hd.2) tl := rfl

theorem alookup_dUpdate_not_mem (d other : List (String × PyVal)) (k : String)
    (h : k ∉ keys other) : alookup (dUpdate d other) k = alookup d k := by
  induction other generalizing d with
  | nil => rfl
  | cons hd tl ih =>
    rw [keys_cons, List.mem_cons] at h
    push_neg at h
    rw [dUpdate_cons, ih _ h.2, alookup_dSet_ne _ _ _ _ h.1]

theorem alookup_dUpdate_mem (d other : List (String × PyVal)) (k : String)
    (v : PyVal) (hnd : (keys other).Nodup) (hmem : alookup other k = some v) :
    alookup (dUpdate d other) k = some v := by
  induction other generalizing d with
  | nil => simp [alookup] at hmem
  | cons hd tl ih =>
    obtain ⟨k', v'⟩ := hd
    rw [keys_cons, List.nodup_cons] at hnd
    by_cases hk : k' = k
    · subst hk
      simp [alookup] at hmem
      subst hmem
      rw [dUpdate_cons, alookup_dUpdate_not_mem _ _ _ hnd.1]
      exact alookup_dSet_self _ _ _
    · simp [alookup, hk] at hmem
      rw [dUpdate_cons]
      exact ih _ hnd.2 hmem

theorem dGet_dUpdate_not_mem (d other : List (String × PyVal)) (k : String)
    (h : k ∉ keys other) : dGet (dUpdate d other) k = dGet d k := by
  simp [dGet, alookup_dUpdate_not_mem _ _ _ h]

theorem dGet_dUpdate_mem (d other : List (String × PyVal)) (k : String)
    (v : PyVal) (hnd : (keys other).Nodup) (hmem : alookup other k = some v) :
    dGet (dUpdate d other) k = v := by
  simp [dGet, alookup_dUpdate_mem _ _ _ _ hnd hmem]

theorem nodup_keys_dUpdate (d other : List (String × PyVal))
    (h : (keys d).Nodup) : (keys (dUpdate d other)).Nodup := by
  induction other generalizing d with
  | nil => exact h
  | cons hd tl ih => rw [dUpdate_cons]; exact ih _ (nodup_keys_dSet _ _ _ h)

theorem merge_cons (hd : String × PyVal) (tl target : List (String × PyVal))
    (reserved : List String) :
    merge_record_extra (hd :: tl) target reserved =
      merge_record_extra tl
        (if mergeable reserved hd.1 then dSet target hd.1 hd.2 else target)
        reserved := rfl

theorem alookup_merge_not_mergeable (record target : List (String × PyVal))
    (reserved : List String) (k : String)
    (h : mergeable reserved k = false) :
    alookup (merge_record_extra record target reserved) k =
      alookup target k := by
  induction record generalizing target with
  | nil => rfl
  | cons hd tl ih =>
    rw [merge_cons]
    by_cases hm : mergeable reserved hd.1
    · have hne : k ≠ hd.1 := by
        intro he; rw [he, hm] at h; cases h
      rw [if_pos hm, ih, alookup_dSet_ne _ _ _ _ hne]
    · rw [if_neg hm, ih]

theorem alookup_merge_not_mem (record target : List (String × PyVal))
    (reserved : List String) (k : String) (h : k ∉ keys record) :
    alookup (merge_record_extra record target reserved) k =
      alookup target k := by
  induction record generalizing target with
  | nil => rfl
  | cons hd tl ih =>
    rw [keys_cons, List.mem_cons] at h
    push_neg at h
    rw [merge_cons]
    by_cases hm : mergeable reserved hd.1
    · rw [if_pos hm, ih _ h.2, alookup_dSet_ne _ _ _ _ h.1]
    · rw [if_neg hm, ih _ h.2]

theorem alookup_merge_mergeable (record target : List (String × PyVal))
    (reserved : List String) (k : String) (v : PyVal)
    (hnd : (keys record).Nodup) (hm : mergeable reserved k = true)
    (hmem : alookup record k = some v) :
    alookup (merge_record_extra record target reserved) k = some v := by
  induction record generalizing target with
  | nil => simp [alookup] at hmem
  | cons hd tl ih =>
    obtain ⟨k', v'⟩ := hd
    rw [keys_cons, List.nodup_cons] at hnd
    rw [merge_cons]
    by_cases hk : k' = k
    · subst hk
      simp [alookup] at hmem
      subst hmem
      rw [if_pos hm, alookup_merge_not_mem _ _ _ _ hnd.1]
      exact alookup_dSet_self _ _ _
    · simp [alookup, hk] at hmem
      by_cases hm' : mergeable reserved k'
      · rw [if_pos hm']; exact ih _ hnd.2 hmem
      · rw [if_neg hm']; exact ih _ hnd.2 hmem

theorem nodup_keys_merge (record target : List (String × PyVal))
    (reserved : List String) (h : (keys target).Nodup) :
    (keys (merge_record_extra record target reserved)).Nodup := by
  induction record generalizing target with
  | nil => exact h
  | cons hd tl ih =>
    rw [merge_cons]
    by_cases hm : mergeable reserved hd.1
    · rw [if_pos hm]; exact ih _ (nodup_keys_dSet _ _ _ h)
    · rw [if_neg hm]; exact ih _ h

theorem set_required_cons (rd : List (String × PyVal)) (fl : String)
    (tl : List String) (lr : List (String × PyVal)) :
    set_required_fields rd (fl :: tl) lr =
      set_required_fields rd tl (dSet lr fl (dGet rd fl)) := rfl

theorem dGet_set_required (rd : List (String × PyVal)) (fields : List String)
    (lr : List (String × PyVal)) (k : String) :
    dGet (set_required_fields rd fields lr) k =
      if k ∈ fields then dGet rd k else dGet lr k := by
  induction fields generalizing lr with
  | nil => simp [set_required_fields]
  | cons fl tl ih =>
    rw [set_required_cons, ih]
    by_cases h : fl = k
    · subst h
      by_cases h2 : fl ∈ tl
      · simp [h2]
      · simp [h2, dGet_dSet_self]
    · by_cases h2 : k ∈ tl
      · simp [h2, h, Ne.symm h]
      · simp [h2, h, Ne.symm h, dGet_dSet_ne _ _ _ _ (Ne.symm h)]

theorem nodup_keys_set_required (rd : List (String × PyVal))
    (fields : List String) (lr : List (String × PyVal))
    (h : (keys lr).Nodup) : (keys (set_required_fields rd fields lr)).Nodup := by
  induction fields generalizing lr with
  | nil => exact h
  | cons fl tl ih => rw [set_required_cons]; exact ih _ (nodup_keys_dSet _ _ _ h)

/-! ## String helpers -/

theorem string_empty_append (s : String) : "" ++ s = s := by
  cases s with
  | mk d => rfl

theorem string_append_empty (s : String) : s ++ "" = s := by
  cases s with
  | mk d => exact congrArg String.mk (List.append_nil d)

theorem string_append_assoc (a b c : String) : a ++ b ++ c = a ++ (b ++ c) := by
  cases a with
  | mk x =>
    cases b with
    | mk y =>
      cases c with
      | mk z => exact congrArg String.mk (List.append_assoc x y z)

/-! ## Filesystem lemmas -/

theorem alookup_append_single_self {α : Type} (l : List (String × α))
    (p : String) (c : α) (h : alookup l p = Option.none) :
    alookup (l ++ [(p, c)]) p = some c := by
  induction l with
  | nil => simp [alookup]
  | cons hd tl ih =>
    obtain ⟨q, v⟩ := hd
    by_cases hq : q = p
    · subst hq; simp [alookup] at h
    · simp [alookup, hq] at h ⊢; exact ih h

theorem alookup_append_single_ne {α : Type} (l : List (String × α))
    (p q : String) (c : α) (h : q ≠ p) :
    alookup (l ++ [(p, c)]) q = alookup l q := by
  induction l with
  | nil => simp [alookup, Ne.symm h]
  | cons hd tl ih =>
    obtain ⟨k, v⟩ := hd
    by_cases hk : k = q
    · subst hk; simp [alookup]
    · simp [alookup, hk, ih]

theorem countKey_append_single {α : Type} (l : List (String × α))
    (p : String) (c : α) : countKey (l ++ [(p, c)]) p = countKey l p + 1 := by
  induction l with
  | nil => simp [countKey]
  | cons hd tl ih =>
    obtain ⟨k, v⟩ := hd
    simp [countKey, ih]
    omega

theorem countKey_eq_zero {α : Type} (l : List (String × α)) (p : String)
    (h : alookup l p = Option.none) : countKey l p = 0 := by
  induction l with
  | nil => rfl
  | cons hd tl ih =>
    obtain ⟨k, v⟩ := hd
    by_cases hk : k = p
    · subst hk; simp [alookup] at h
    · simp [alookup, hk] at h
      simp [countKey, hk, ih h]

theorem alookup_appendAssoc_self (l : List (String × String)) (p s : String) :
    alookup (appendAssoc l p s) p = some ((alookup l p).getD "" ++ s) := by
  induction l with
  | nil => simp [appendAssoc, alookup, string_empty_append]
  | cons hd tl ih =>
    obtain ⟨q, c⟩ := hd
    by_cases hq : q = p
    · subst hq; simp [appendAssoc, alookup]
    · simp [appendAssoc, alookup, hq, ih]

theorem alookup_appendAssoc_ne (l : List (String × String)) (p q s : String)
    (h : q ≠ p) : alookup (appendAssoc l p s) q = alookup l q := by
  induction l with
  | nil => simp [appendAssoc, alookup, Ne.symm h]
  | cons hd tl ih =>
    obtain ⟨k, c⟩ := hd
    by_cases hk : k = p
    · subst hk; simp [appendAssoc, alookup, Ne.symm h]
    · simp [appendAssoc, alookup, hk, ih]

theorem countKey_appendAssoc (l : List (String × String)) (p s q : String)
    (h : (alookup l p).isSome) :
    countKey (appendAssoc l p s) q = countKey l q := by
  induction l with
  | nil => simp [alookup] at h
  | cons hd tl ih =>
    obtain ⟨k, c⟩ := hd
    by_cases hk : k = p
    · subst hk; simp [appendAssoc, countKey]
    · simp [alookup, hk] at h
      simp [appendAssoc, countKey, hk, ih h]

/-! ## Handler lemmas -/

theorem rotate_at_ge (now : Nat) : now ≤ next_rotate_at now := by
  have h2 : now % 86400 < 86400 := Nat.mod_lt _ (by omega)
  unfold next_rotate_at
  omega

theorem next_rotate_eq_midnightAfter (now : Nat) :
    next_rotate_at now = midnightAfter now := by
  unfold next_rotate_at midnightAfter
  omega

theorem emit_no_rotate (h : SituRotatingFileHandler) (fs : FS) (now : Nat)
    (line p : String) (hs : h.stream = some p) (hle : now ≤ h.rotate_at) :
    h.emit fs now line = .ok (h, fs.append p line) := by
  simp only [SituRotatingFileHandler.emit]
  rw [if_neg (by omega : ¬h.rotate_at < now), hs]

theorem situ_open_ok (fs : FS) (filename : String) (now : Nat)
    (herr : fs.errs (log_today filename now) = Option.none) :
    situ_open fs filename now =
      .ok (openAppend fs (log_today filename now), log_today filename now) := by
  unfold situ_open osCreateExcl openAppend
  rw [herr]
  cases hcase : alookup fs.files (log_today filename now) with
  | none =>
    simp [hcase, alookup_append_single_self _ _ _ hcase]
  | some c =>
    simp [hcase]

theorem runPair_cons_true (hA hB : SituRotatingFileHandler) (fs : FS)
    (now : Nat) (m : String) (rest : List (Bool × String)) :
    runPair hA hB fs now ((true, m) :: rest) =
      (hA.emit fs now m).bind fun pr => runPair pr.1 hB pr.2 now rest := rfl

theorem runPair_cons_false (hA hB : SituRotatingFileHandler) (fs : FS)
    (now : Nat) (m : String) (rest : List (Bool × String)) :
    runPair hA hB fs now ((false, m) :: rest) =
      (hB.emit fs now m).bind fun pr => runPair hA pr.1 pr.2 now rest := rfl

theorem runPair_appends (hA hB : SituRotatingFileHandler) (fs : FS)
    (now : Nat) (p : String) (ws : List (Bool × String))
    (hsA : hA.stream = some p) (hleA : now ≤ hA.rotate_at)
    (hsB : hB.stream = some p) (hleB : now ≤ hB.rotate_at) :
    runPair hA hB fs now ws = .ok (hA, hB, foldAppend fs p ws) := by
  induction ws generalizing fs with
  | nil => rfl
  | cons w tl ih =>
    obtain ⟨b, m⟩ := w
    cases b
    · rw [runPair_cons_false, emit_no_rotate _ _ _ _ _ hsB hleB]
      exact ih _
    · rw [runPair_cons_true, emit_no_rotate _ _ _ _ _ hsA hleA]
      exact ih _

theorem concatWrites_from (ws : List (Bool × String)) (acc : String) :
    ws.foldl (fun a w => a ++ w.2) acc = acc ++ concatWrites ws := by
  induction ws generalizing acc with
  | nil => exact (string_append_empty acc).symm
  | cons w tl ih =>
    rw [List.foldl_cons, ih]
    show (acc ++ w.2) ++ concatWrites tl = acc ++ concatWrites (w :: tl)
    rw [string_append_assoc]
    congr 1
    rw [show concatWrites (w :: tl) =
          tl.foldl (fun a x => a ++ x.2) ("" ++ w.2) from rfl,
        ih, string_empty_append]

theorem concatWrites_cons (w : Bool × String) (tl : List (Bool × String)) :
    concatWrites (w :: tl) = w.2 ++ concatWrites tl := by
  show tl.foldl (fun a x => a ++ x.2) ("" ++ w.2) = _
  rw [concatWrites_from, string_empty_append]

theorem string_length_append (a b : String) :
    (a ++ b).length = a.length + b.length := by
  cases a with
  | mk x =>
    cases b with
    | mk y => exact List.length_append x y

theorem concatWrites_length (ws : List (Bool × String)) :
    (concatWrites ws).length = totalBytes ws := by
  induction ws with
  | nil => rfl
  | cons w tl ih =>
    rw [concatWrites_cons, string_length_append, ih]
    simp [totalBytes]

theorem alookup_foldAppend (fs : FS) (p : String) (ws : List (Bool × String))
    (c : String) (h : alookup fs.files p = some c) :
    alookup (foldAppend fs p ws).files p = some (c ++ concatWrites ws) := by
  induction ws generalizing fs c with
  | nil =>
    rw [show concatWrites ([] : List (Bool × String)) = "" from rfl,
      string_append_empty]
    exact h
  | cons w tl ih =>
    obtain ⟨b, m⟩ := w
    have h2 : alookup (fs.append p m).files p = some (c ++ m) := by
      show alookup (appendAssoc fs.files p m) p = _
      rw [alookup_appendAssoc_self, h]
      rfl
    rw [show foldAppend fs p ((b, m) :: tl) = foldAppend (fs.append p m) p tl
          from rfl,
        ih _ _ h2, string_append_assoc, concatWrites_cons]

theorem countKey_foldAppend (fs : FS) (p : String)
    (ws : List (Bool × String)) (q : String)
    (h : (alookup fs.files p).isSome) :
    countKey (foldAppend fs p ws).files q = countKey fs.files q := by
  induction ws generalizing fs with
  | nil => rfl
  | cons w tl ih =>
    have h2 : (alookup (fs.append p w.2).files p).isSome := by
      show (alookup (appendAssoc fs.files p w.2) p).isSome
      rw [alookup_appendAssoc_self]
      rfl
    rw [show foldAppend fs p (w :: tl) = foldAppend (fs.append p w.2) p tl
          from rfl,
        ih _ h2]
    show countKey (appendAssoc fs.files p w.2) q = countKey fs.files q
    exact countKey_appendAssoc _ _ _ _ h

theorem construct_creates (fs0 : FS) (filename : String) (now : Nat)
    (hfile : alookup fs0.files (log_today filename now) = Option.none)
    (herr : fs0.errs (log_today filename now) = Option.none) :
    SituRotatingFileHandler.construct fs0 filename now =
      .ok ({ filename := filename, rotate_at := next_rotate_at now,
             stream := some (log_today filename now) },
           { fs0 with
             files := fs0.files ++ [(log_today filename now, "")] }) := by
  unfold SituRotatingFileHandler.construct
  rw [situ_open_ok _ _ _ herr]
  unfold openAppend
  rw [hfile]
  rfl

theorem construct_exists (fs : FS) (filename : String) (now : Nat)
    (hfile : (alookup fs.files (log_today filename now)).isSome = true)
    (herr : fs.errs (log_today filename now) = Option.none) :
    SituRotatingFileHandler.construct fs filename now =
      .ok ({ filename := filename, rotate_at := next_rotate_at now,
             stream := some (log_today filename now) }, fs) := by
  unfold SituRotatingFileHandler.construct
  rw [situ_open_ok _ _ _ herr]
  unfold openAppend
  rw [if_pos hfile]
  rfl

/-- C2 (concurrency, modelled as interleaving): two handler instances in
separate processes both construct the handler for the same day's file at the
same moment over a shared filesystem with an atomic exclusive create.  The
first create wins; the second gets `EEXIST`, swallows it and append-opens
the same path; exactly one physical file results (its key is bound once);
both instances hold the same path open; and for an arbitrary interleaving
`ws` of their subsequent writes no write is lost: the file's final content
is the concatenation of all writes in interleaving order, whose byte count
is the total number of bytes the two instances wrote. -/
theorem C2_create_race_no_lost_writes (fs0 : FS) (filename : String)
    (now : Nat) (ws : List (Bool × String))
    (hfile : alookup fs0.files (log_today filename now) = Option.none)
    (herr : fs0.errs (log_today filename now) = Option.none) :
    SituRotatingFileHandler.construct fs0 filename now =
      .ok ({ filename := filename, rotate_at := next_rotate_at now,
             stream := some (log_today filename now) },
           { fs0 with
             files := fs0.files ++ [(log_today filename now, "")] })
  ∧ SituRotatingFileHandler.construct
      { fs0 with files := fs0.files ++ [(log_today filename now, "")] }
      filename now =
      .ok ({ filename := filename, rotate_at := next_rotate_at now,
             stream := some (log_today filename now) },
           { fs0 with
             files := fs0.files ++ [(log_today filename now, "")] })
  ∧ countKey (fs0.files ++ [(log_today filename now, "")])
      (log_today filename now) = 1
  ∧ runPair
      { filename := filename, rotate_at := next_rotate_at now,
        stream := some (log_today filename now) }
      { filename := filename, rotate_at := next_rotate_at now,
        stream := some (log_today filename now) }
      { fs0 with files := fs0.files ++ [(log_today filename now, "")] }
      now ws =
      .ok ({ filename := filename, rotate_at := next_rotate_at now,
             stream := some (log_today filename now) },
           { filename := filename, rotate_at := next_rotate_at now,
             stream := some (log_today filename now) },
           foldAppend
             { fs0 with
               files := fs0.files ++ [(log_today filename now, "")] }
             (log_today filename now) ws)
  ∧ alookup
      (foldAppend
        { fs0 with files := fs0.files ++ [(log_today filename now, "")] }
        (log_today filename now) ws).files (log_today filename now) =
      some (concatWrites ws)
  ∧ (concatWrites ws).length = totalBytes ws
  ∧ countKey
      (foldAppend
        { fs0 with files := fs0.files ++ [(log_today filename now, "")] }
        (log_today filename now) ws).files (log_today filename now) = 1 := by
  have hp1 : alookup (fs0.files ++ [(log_today filename now, "")])
      (log_today filename now) = some "" :=
    alookup_append_single_self _ _ _ hfile
  refine ⟨construct_creates _ _ _ hfile herr, ?_, ?_, ?_, ?_,
    concatWrites_length ws, ?_⟩
  · exact construct_exists _ _ _ (by rw [hp1]; rfl) herr
  · rw [countKey_append_single, countKey_eq_zero _ _ hfile]
  · exact runPair_appends _ _ _ _ _ _ rfl (rotate_at_ge now) rfl
      (rotate_at_ge now)
  · have h5 := alookup_foldAppend
      { fs0 with files := fs0.files ++ [(log_today filename now, "")] }
      (log_today filename now) ws "" hp1
    rw [string_empty_append] at h5
    exact h5
  · rw [countKey_foldAppend _ _ _ _ (by rw [hp1]; rfl),
      countKey_append_single, countKey_eq_zero _ _ hfile]

/-- Witness for C2 at a concrete race: empty filesystem, `now = 1000`,
three interleaved writes. -/
theorem C2_create_race_no_lost_writes_witness :
    SituRotatingFileHandler.construct ⟨[], fun _ => Option.none⟩ "app.log"
      1000 =
      .ok (⟨"app.log", 86400, some "app.log.0"⟩,
           ⟨[("app.log.0", "")], fun _ => Option.none⟩)
  ∧ SituRotatingFileHandler.construct
      ⟨[("app.log.0", "")], fun _ => Option.none⟩ "app.log" 1000 =
      .ok (⟨"app.log", 86400, some "app.log.0"⟩,
           ⟨[("app.log.0", "")], fun _ => Option.none⟩)
  ∧ countKey [("app.log.0", "")] "app.log.0" = 1
  ∧ runPair ⟨"app.log", 86400, some "app.log.0"⟩
      ⟨"app.log", 86400, some "app.log.0"⟩
      ⟨[("app.log.0", "")], fun _ => Option.none⟩ 1000
      [(true, "ab"), (false, "cde"), (true, "f")] =
      .ok (⟨"app.log", 86400, some "app.log.0"⟩,
           ⟨"app.log", 86400, some "app.log.0"⟩,
           foldAppend ⟨[("app.log.0", "")], fun _ => Option.none⟩
             "app.log.0" [(true, "ab"), (false, "cde"), (true, "f")])
  ∧ alookup
      (foldAppend ⟨[("app.log.0", "")], fun _ => Option.none⟩ "app.log.0"
        [(true, "ab"), (false, "cde"), (true, "f")]).files "app.log.0" =
      some "abcdef"
  ∧ (concatWrites [(true, "ab"), (false, "cde"), (true, "f")]).length =
      totalBytes [(true, "ab"), (false, "cde"), (true, "f")]
  ∧ countKey
      (foldAppend ⟨[("app.log.0", "")], fun _ => Option.none⟩ "app.log.0"
        [(true, "ab"), (false, "cde"), (true, "f")]).files "app.log.0" = 1 :=
  C2_create_race_no_lost_writes ⟨[], fun _ => Option.none⟩ "app.log" 1000
    [(true, "ab"), (false, "cde"), (true, "f")] rfl rfl

/-- C3: on every write attempt, a current time at or before `rotateDeadline`
writes the record to the existing handle with no rotation; a current time
strictly past the deadline recomputes the deadline (equal to local midnight
of the day after the new `now`), closes the current handle, opens or creates
the file for today's date `baseName ++ "." ++ <date>`, and writes the record
to it. -/
theorem C3_emit_rotation (h : SituRotatingFileHandler) (fs : FS) (now : Nat)
    (line p : String) (hs : h.stream = some p) :
    (now ≤ h.rotate_at → h.emit fs now line = .ok (h, fs.append p line))
  ∧ (h.rotate_at < now → fs.errs (log_today h.filename now) = Option.none →
      h.emit fs now line =
        .ok ({ filename := h.filename, rotate_at := next_rotate_at now,
               stream := some (log_today h.filename now) },
          (openAppend fs (log_today h.filename now)).append
            (log_today h.filename now) line) ∧
      next_rotate_at now = midnightAfter now) := by
  constructor
  · intro hle
    exact emit_no_rotate _ _ _ _ _ hs hle
  · intro hlt herr
    refine ⟨?_, next_rotate_eq_midnightAfter now⟩
    simp only [SituRotatingFileHandler.emit]
    rw [if_pos hlt]
    show (situ_open fs h.filename now).map _ = _
    rw [situ_open_ok _ _ _ herr]
    rfl

/-- Witness for C3: one write before the deadline appends in place; one
write past the deadline rotates to the day-2 file. -/
theorem C3_emit_rotation_witness :
    ((⟨"app", 100, some "app.0"⟩ : SituRotatingFileHandler).emit
        ⟨[("app.0", "x")], fun _ => Option.none⟩ 50 "L" =
      .ok (⟨"app", 100, some "app.0"⟩,
           ⟨[("app.0", "xL")], fun _ => Option.none⟩))
  ∧ ((⟨"app", 100, some "app.0"⟩ : SituRotatingFileHandler).emit
        ⟨[("app.0", "x")], fun _ => Option.none⟩ 200000 "L" =
      .ok (⟨"app", 259200, some "app.2"⟩,
           ⟨[("app.0", "x"), ("app.2", "L")], fun _ => Option.none⟩)
     ∧ next_rotate_at 200000 = midnightAfter 200000) :=
  ⟨(C3_emit_rotation ⟨"app", 100, some "app.0"⟩
      ⟨[("app.0", "x")], fun _ => Option.none⟩ 50 "L" "app.0" rfl).1
      (by decide),
   (C3_emit_rotation ⟨"app", 100, some "app.0"⟩
      ⟨[("app.0", "x")], fun _ => Option.none⟩ 200000 "L" "app.0" rfl).2
      (by decide) rfl⟩

/-- C4: when opening a day's file, an exclusive create that fails because
the file already exists raises `EEXIST`, which is swallowed and the path is
then opened in append mode with the filesystem (hence the existing content)
untouched; a creation failure with any other errno propagates unchanged to
the caller with no retry. -/
theorem C4_open_eexist_swallowed_others_propagate (fs : FS)
    (filename : String) (now : Nat) :
    (fs.errs (log_today filename now) = Option.none →
      (alookup fs.files (log_today filename now)).isSome = true →
      osCreateExcl fs (log_today filename now) = .error EEXIST ∧
      situ_open fs filename now = .ok (fs, log_today filename now))
  ∧ (∀ e, fs.errs (log_today filename now) = some e → e ≠ EEXIST →
      situ_open fs filename now = .error e) := by
  constructor
  · intro herr hex
    refine ⟨?_, ?_⟩
    · unfold osCreateExcl
      rw [herr, if_pos hex]
    · rw [situ_open_ok _ _ _ herr]
      unfold openAppend
      rw [if_pos hex]
  · intro e herr hne
    unfold situ_open osCreateExcl
    rw [herr]
    simp [hne]

/-- Witness for C4: `EEXIST` on an existing file is swallowed; errno 13
(`EACCES`) propagates. -/
theorem C4_open_eexist_swallowed_others_propagate_witness :
    (osCreateExcl ⟨[("app.log.0", "x")], fun _ => Option.none⟩ "app.log.0" =
        .error EEXIST ∧
      situ_open ⟨[("app.log.0", "x")], fun _ => Option.none⟩ "app.log"
        1000 =
        .ok (⟨[("app.log.0", "x")], fun _ => Option.none⟩, "app.log.0"))
  ∧ situ_open ⟨[], fun _ => some 13⟩ "app.log" 1000 = .error 13 :=
  ⟨(C4_open_eexist_swallowed_others_propagate
      ⟨[("app.log.0", "x")], fun _ => Option.none⟩ "app.log" 1000).1 rfl rfl,
   (C4_open_eexist_swallowed_others_propagate
      ⟨[], fun _ => some 13⟩ "app.log" 1000).2 13 rfl (by decide)⟩

/-! ## Formatter lemmas -/

theorem contains_iff_mem (l : List String) (k : String) :
    l.contains k = true ↔ k ∈ l := by
  induction l with
  | nil => simp
  | cons a tl ih => simp [List.contains_cons, ih]

theorem dGet_merge_not_mergeable (record target : List (String × PyVal))
    (reserved : List String) (k : String)
    (h : mergeable reserved k = false) :
    dGet (merge_record_extra record target reserved) k = dGet target k := by
  simp [dGet, alookup_merge_not_mergeable _ _ _ _ h]

theorem dGet_merge_not_mem (record target : List (String × PyVal))
    (reserved : List String) (k : String) (h : k ∉ keys record) :
    dGet (merge_record_extra record target reserved) k = dGet target k := by
  simp [dGet, alookup_merge_not_mem _ _ _ _ h]

theorem dGet_merge_mergeable (record target : List (String × PyVal))
    (reserved : List String) (k : String) (v : PyVal)
    (hnd : (keys record).Nodup) (hm : mergeable reserved k = true)
    (hmem : alookup record k = some v) :
    dGet (merge_record_extra record target reserved) k = v := by
  simp [dGet, alookup_merge_mergeable _ _ _ _ _ hnd hm hmem]

theorem dGet_add_fields_payload (f : JsonFormatter)
    (rd md : List (String × PyVal)) (k : String) (v : PyVal)
    (hnm : mergeable f.skip_fields k = false)
    (hnd : (keys md).Nodup) (hmem : alookup md k = some v) :
    dGet (f.add_fields [] rd md) k = v := by
  unfold JsonFormatter.add_fields
  rw [dGet_merge_not_mergeable _ _ _ _ hnm, dGet_dUpdate_mem _ _ _ _ hnd hmem]

theorem dGet_add_fields_required (f : JsonFormatter)
    (rd md : List (String × PyVal)) (k : String)
    (hnm : mergeable f.skip_fields k = false) (hkmd : k ∉ keys md)
    (hreq : k ∈ f.required_fields) :
    dGet (f.add_fields [] rd md) k = dGet rd k := by
  unfold JsonFormatter.add_fields
  rw [dGet_merge_not_mergeable _ _ _ _ hnm, dGet_dUpdate_not_mem _ _ _ hkmd,
    dGet_set_required, if_pos hreq]

theorem dGet_add_fields_extra (f : JsonFormatter)
    (rd md : List (String × PyVal)) (k : String) (v : PyVal)
    (hnd : (keys rd).Nodup) (hm : mergeable f.skip_fields k = true)
    (hmem : alookup rd k = some v) :
    dGet (f.add_fields [] rd md) k = v := by
  unfold JsonFormatter.add_fields
  exact dGet_merge_mergeable _ _ _ _ _ hnd hm hmem

theorem nodup_keys_add_fields (f : JsonFormatter)
    (rd md : List (String × PyVal)) :
    (keys (f.add_fields [] rd md)).Nodup := by
  unfold JsonFormatter.add_fields
  exact nodup_keys_merge _ _ _
    (nodup_keys_dUpdate _ _
      (nodup_keys_set_required _ _ _ (by simp [keys])))

theorem mergeable_skip_of_reserved (f : JsonFormatter) (k : String)
    (h : k ∈ RESERVED_ATTRS) : mergeable f.skip_fields k = false := by
  unfold mergeable
  have hc : f.skip_fields.contains k = true := by
    refine (contains_iff_mem _ _).mpr ?_
    unfold JsonFormatter.skip_fields
    exact List.mem_append_right _ h
  rw [hc]
  rfl

theorem mergeable_skip_of_required (f : JsonFormatter) (k : String)
    (h : k ∈ f.required_fields) : mergeable f.skip_fields k = false := by
  unfold mergeable
  have hc : f.skip_fields.contains k = true := by
    refine (contains_iff_mem _ _).mpr ?_
    unfold JsonFormatter.skip_fields
    exact List.mem_append_left _ h
  rw [hc]
  rfl

theorem alookup_of_truthy (d : List (String × PyVal)) (k : String)
    (h : truthy (dGet d k) = true) : alookup d k = some (dGet d k) := by
  unfold dGet at *
  cases hc : alookup d k with
  | none =>
    rw [hc] at h
    simp [truthy] at h
  | some v => rfl

theorem dGet_format_rd1_ne (rd : List (String × PyVal)) (k : String)
    (h : k ≠ "message") : dGet (format_rd1 rd) k = dGet rd k := by
  unfold format_rd1
  split
  · exact dGet_dSet_ne _ _ _ _ h
  · exact dGet_dSet_ne _ _ _ _ h

theorem dGet_format_rd2_ne (f : JsonFormatter) (rd : List (String × PyVal))
    (k : String) (h1 : k ≠ "message") (h2 : k ≠ "asctime") :
    dGet (format_rd2 f rd) k = dGet rd k := by
  unfold format_rd2
  split
  · rw [dGet_dSet_ne _ _ _ _ h2]
    exact dGet_format_rd1_ne _ _ h1
  · exact dGet_format_rd1_ne _ _ h1

theorem dGet_format_rd3_ne (f : JsonFormatter) (rd : List (String × PyVal))
    (k : String) (h1 : k ≠ "message") (h2 : k ≠ "asctime")
    (h3 : k ≠ "msg") : dGet (format_rd3 f rd) k = dGet rd k := by
  unfold format_rd3
  split
  · rw [dGet_dSet_ne _ _ _ _ h3]
    exact dGet_format_rd2_ne _ _ _ h1 h2
  · exact dGet_format_rd2_ne _ _ _ h1 h2

theorem dGet_format_rd1_message (rd : List (String × PyVal)) :
    dGet (format_rd1 rd) "message" =
      (if msgIsDict rd then PyVal.none else getMessage rd) := by
  unfold format_rd1
  by_cases h : msgIsDict rd = true
  · rw [if_pos h, if_pos h, dGet_dSet_self]
  · rw [if_neg h, if_neg h, dGet_dSet_self]

theorem dGet_format_rd3_message (f : JsonFormatter)
    (rd : List (String × PyVal)) :
    dGet (format_rd3 f rd) "message" =
      (if msgIsDict rd then PyVal.none else getMessage rd) := by
  have h1 : dGet (format_rd2 f rd) "message" = dGet (format_rd1 rd) "message" := by
    unfold format_rd2
    split
    · exact dGet_dSet_ne _ _ _ _ (by decide)
    · rfl
  unfold format_rd3
  by_cases h : msgIsDict rd = true
  · rw [if_pos h, dGet_dSet_ne _ _ _ _ (by decide), h1,
      dGet_format_rd1_message]
  · rw [if_neg h, h1, dGet_format_rd1_message]

theorem dGet_format_rd3_asctime (f : JsonFormatter)
    (rd : List (String × PyVal))
    (hreq : f.required_fields.contains "asctime" = true) :
    dGet (format_rd3 f rd) "asctime" =
      .str (f.formatTime (format_rd1 rd)) := by
  have h1 : dGet (format_rd2 f rd) "asctime" =
      .str (f.formatTime (format_rd1 rd)) := by
    unfold format_rd2
    rw [if_pos hreq, dGet_dSet_self]
  unfold format_rd3
  split
  · rw [dGet_dSet_ne _ _ _ _ (by decide), h1]
  · exact h1

theorem mem_keys_format_md1 (f : JsonFormatter) (rd : List (String × PyVal))
    (k : String) (h : k ∈ keys (format_md1 f rd)) :
    k ∈ keys (msgPayload rd) ∨ k = "exc_info" := by
  unfold format_md1 at h
  split at h
  · exact (mem_keys_dSet _ _ _ _).mp h
  · exact Or.inl h

theorem mem_keys_format_md2 (f : JsonFormatter) (rd : List (String × PyVal))
    (k : String) (h : k ∈ keys (format_md2 f rd)) :
    k ∈ keys (msgPayload rd) ∨ k = "exc_info" := by
  unfold format_md2 at h
  split at h
  · rcases (mem_keys_dSet _ _ _ _).mp h with h1 | h1
    · exact mem_keys_format_md1 _ _ _ h1
    · exact Or.inr h1
  · exact mem_keys_format_md1 _ _ _ h

theorem nodup_keys_format_md1 (f : JsonFormatter)
    (rd : List (String × PyVal)) (h : (keys (msgPayload rd)).Nodup) :
    (keys (format_md1 f rd)).Nodup := by
  unfold format_md1
  split
  · exact nodup_keys_dSet _ _ _ h
  · exact h

theorem nodup_keys_format_md2 (f : JsonFormatter)
    (rd : List (String × PyVal)) (h : (keys (msgPayload rd)).Nodup) :
    (keys (format_md2 f rd)).Nodup := by
  unfold format_md2
  split
  · exact nodup_keys_dSet _ _ _ (nodup_keys_format_md1 f rd h)
  · exact nodup_keys_format_md1 f rd h

theorem formatCore_fst (f : JsonFormatter) (rd : List (String × PyVal)) :
    (f.formatCore rd).1 =
      f.add_fields [] (format_rd3 f rd) (format_md2 f rd) := rfl

theorem format_snd (f : JsonFormatter) (rd : List (String × PyVal)) :
    (f.format rd).2 = format_rd3 f rd := rfl

theorem format_md2_rendered (f : JsonFormatter) (rd : List (String × PyVal))
    (t : String) (ht : t.isEmpty = false)
    (hexc : dGet rd "exc_info" = PyVal.excInfo t)
    (hpay : truthy (dGet (msgPayload rd) "exc_info") = false) :
    format_md2 f rd = dSet (msgPayload rd) "exc_info" (.str t) := by
  have h2 : dGet (format_rd2 f rd) "exc_info" = PyVal.excInfo t := by
    rw [dGet_format_rd2_ne _ _ _ (by decide) (by decide), hexc]
  have hmd1 : format_md1 f rd = dSet (msgPayload rd) "exc_info" (.str t) := by
    unfold format_md1
    rw [h2, hpay]
    rfl
  unfold format_md2
  rw [hmd1, dGet_dSet_self,
    show truthy (PyVal.str t) = !t.isEmpty from rfl, ht]
  rfl

theorem format_md2_cached (f : JsonFormatter) (rd : List (String × PyVal))
    (s : String) (hs : s.isEmpty = false)
    (hexc : truthy (dGet rd "exc_info") = false)
    (hpay : truthy (dGet (msgPayload rd) "exc_info") = false)
    (htext : dGet rd "exc_text" = PyVal.str s) :
    format_md2 f rd = dSet (msgPayload rd) "exc_info" (.str s) := by
  have h2 : dGet (format_rd2 f rd) "exc_info" = dGet rd "exc_info" :=
    dGet_format_rd2_ne _ _ _ (by decide) (by decide)
  have h3 : dGet (format_rd2 f rd) "exc_text" = PyVal.str s := by
    rw [dGet_format_rd2_ne _ _ _ (by decide) (by decide), htext]
  have hmd1 : format_md1 f rd = msgPayload rd := by
    unfold format_md1
    rw [h2, hexc]
    rfl
  unfold format_md2
  rw [hmd1, hpay, h3,
    show truthy (PyVal.str s) = !s.isEmpty from rfl, hs]
  rfl

theorem format_md2_payload_wins (f : JsonFormatter)
    (rd : List (String × PyVal))
    (hpay : truthy (dGet (msgPayload rd) "exc_info") = true) :
    format_md2 f rd = msgPayload rd := by
  have hmd1 : format_md1 f rd = msgPayload rd := by
    unfold format_md1
    rw [hpay]
    simp
  unfold format_md2
  rw [hmd1, hpay]
  rfl

/-! ## Claims about the formatter -/

/-- C1 (code bug): `format` never serializes through the documented
fallback.  `jsonify_log_record` calls bare `json.dumps`: `__init__`
hard-codes `self.json_serializer = json.dumps` (the `json_serializer`
keyword is not even popped from `kwargs`), and neither `self.json_default`
nor `self.json_encoder` is passed to the call.  A record whose payload holds
a `datetime` therefore raises `TypeError`, while the behaviour documented in
the class and `__init__` docstrings (dump with
`default=_default_json_handler`) renders it as an ISO-8601 string. -/
theorem C1_fallback_never_wired_into_serializer :
    (fmtA.format rdC1).1 = .error ()
  ∧ jsonify_log_record (fmtA.formatCore rdC1).1 = .error ()
  ∧ json_dumps_default _default_json_handler
      (.dict (fmtA.formatCore rdC1).1) =
      .ok "\x7b\"message\": null, \"ts\": \"2020-03-14\"\x7d" :=
  ⟨rfl, rfl, rfl⟩

/-- C5 counterexample: the payload maps `"user"` to `"alice"`, yet the
emitted mapping holds the extra attribute's value `"bob"` — extras are
merged after `log_record.update(message_dict)` and overwrite same-named
payload keys, so the payload value is not the one present in the final
output. -/
theorem C5_counterexample_extra_overwrites_payload :
    alookup (msgPayload rdC5) "user" = some (.str "alice")
  ∧ dGet (fmtA.formatCore rdC5).1 "user" = .str "bob"
  ∧ PyVal.str "bob" ≠ PyVal.str "alice" := by
  refine ⟨rfl, rfl, fun h => ?_⟩
  injection h with h2
  exact absurd h2 (by decide)

/-- C5 (amended): a payload key that is a required field (or otherwise does
not collide with a mergeable extra attribute) keeps the payload's value in
the final output — in particular every required-field name is unmergeable,
so payload values do win over the required-field stage; but an extra
attribute whose name is not in `skip_fields` and does not start with an
underscore is merged last and its value wins over the payload for
overlapping keys. -/
theorem C5_amended_payload_vs_extras (f : JsonFormatter)
    (rd md : List (String × PyVal)) (k : String) (v w : PyVal)
    (hndmd : (keys md).Nodup) (hmem : alookup md k = some v) :
    (¬(mergeable f.skip_fields k = true ∧ k ∈ keys rd) →
       dGet (f.add_fields [] rd md) k = v)
  ∧ ((keys rd).Nodup → mergeable f.skip_fields k = true →
       alookup rd k = some w → dGet (f.add_fields [] rd md) k = w)
  ∧ (k ∈ f.required_fields → mergeable f.skip_fields k = false) := by
  refine ⟨?_, ?_, mergeable_skip_of_required f k⟩
  · intro hno
    by_cases hm : mergeable f.skip_fields k = true
    · have hkr : k ∉ keys rd := fun hmemk => hno ⟨hm, hmemk⟩
      unfold JsonFormatter.add_fields
      rw [dGet_merge_not_mem _ _ _ _ hkr,
        dGet_dUpdate_mem _ _ _ _ hndmd hmem]
    · have hm' : mergeable f.skip_fields k = false := by
        cases hcase : mergeable f.skip_fields k
        · rfl
        · exact absurd hcase hm
      exact dGet_add_fields_payload f rd md k v hm' hndmd hmem
  · intro hnd hm hmemk
    exact dGet_add_fields_extra f rd md k w hnd hm hmemk

/-- Witness for C5 (amended) at concrete inputs: a non-colliding payload key
survives, a colliding mergeable extra wins, and a required-field name is
never mergeable. -/
theorem C5_amended_payload_vs_extras_witness :
    dGet (fmtA.add_fields [] rdC5
        [("user", PyVal.str "alice"), ("color", PyVal.str "red")]) "color" =
      .str "red"
  ∧ dGet (fmtA.add_fields [] rdC5
        [("user", PyVal.str "alice"), ("color", PyVal.str "red")]) "user" =
      .str "bob"
  ∧ mergeable fmtA.skip_fields "message" = false :=
  ⟨(C5_amended_payload_vs_extras fmtA rdC5
      [("user", PyVal.str "alice"), ("color", PyVal.str "red")] "color"
      (.str "red") PyVal.none (by decide) rfl).1 (by decide),
   (C5_amended_payload_vs_extras fmtA rdC5
      [("user", PyVal.str "alice"), ("color", PyVal.str "red")] "user"
      (.str "alice") (.str "bob") (by decide) rfl).2.1 (by decide)
      (by decide) rfl,
   (C5_amended_payload_vs_extras fmtA rdC5 [("message", PyVal.str "x")]
      "message" (.str "x") PyVal.none (by decide) rfl).2.2 (by decide)⟩

/-- C6: a structured (dict) message is treated as the message payload and
the plain-message field is suppressed: whenever `"message"` is a required
field and the payload does not redefine it, the emitted `message` value is
`null`; concretely, pattern `"(asctime) (levelname) (message)"` with payload
`{"user": "alice", "action": "login"}` yields exactly
`asctime`/`levelname` as usual, `message` null, and the payload entries. -/
theorem C6_structured_message_suppresses_plain (f : JsonFormatter)
    (rd : List (String × PyVal)) (hdict : msgIsDict rd = true)
    (hreq : "message" ∈ f.required_fields)
    (hpay : "message" ∉ keys (msgPayload rd)) :
    dGet (f.formatCore rd).1 "message" = PyVal.none
  ∧ (fmtB.formatCore rdC6).1 =
      [("asctime", .str "2020-03-14 00:00:00,123"),
       ("levelname", .str "INFO"), ("message", PyVal.none),
       ("user", .str "alice"), ("action", .str "login")]
  ∧ (fmtB.format rdC6).1 =
      .ok "\x7b\"asctime\": \"2020-03-14 00:00:00,123\", \"levelname\": \"INFO\", \"message\": null, \"user\": \"alice\", \"action\": \"login\"\x7d" := by
  refine ⟨?_, rfl, rfl⟩
  have hmd : "message" ∉ keys (format_md2 f rd) := by
    intro hmem
    rcases mem_keys_format_md2 _ _ _ hmem with h | h
    · exact hpay h
    · exact absurd h (by decide)
  rw [formatCore_fst,
    dGet_add_fields_required _ _ _ _
      (mergeable_skip_of_reserved f _ (by decide)) hmd hreq,
    dGet_format_rd3_message, if_pos hdict]

/-- Witness for C6 at the spec's concrete scenario. -/
theorem C6_structured_message_suppresses_plain_witness :
    dGet (fmtB.formatCore rdC6).1 "message" = PyVal.none
  ∧ (fmtB.formatCore rdC6).1 =
      [("asctime", .str "2020-03-14 00:00:00,123"),
       ("levelname", .str "INFO"), ("message", PyVal.none),
       ("user", .str "alice"), ("action", .str "login")]
  ∧ (fmtB.format rdC6).1 =
      .ok "\x7b\"asctime\": \"2020-03-14 00:00:00,123\", \"levelname\": \"INFO\", \"message\": null, \"user\": \"alice\", \"action\": \"login\"\x7d" :=
  C6_structured_message_suppresses_plain fmtB rdC6 rfl (by decide) (by decide)

/-- C7: an extra attribute is merged into the output only when its name is
not in `skip_fields` (= the required fields plus the reserved built-in
names) and does not start with an underscore; a reserved or required name is
left exactly as the earlier stages produced it, a qualifying extra's value
is merged, `skip_fields` membership is precisely required-or-reserved, and
the assembled mapping binds every key at most once (nothing is emitted
twice). -/
theorem C7_extras_filtered (f : JsonFormatter)
    (record target rd : List (String × PyVal)) (k : String) (v : PyVal) :
    ((k ∈ f.skip_fields ∨ startsUnderscore k = true) →
       dGet (merge_record_extra record target f.skip_fields) k =
         dGet target k)
  ∧ ((keys record).Nodup → k ∉ f.skip_fields → startsUnderscore k = false →
       alookup record k = some v →
       dGet (merge_record_extra record target f.skip_fields) k = v)
  ∧ (k ∈ f.skip_fields ↔ k ∈ f.required_fields ∨ k ∈ RESERVED_ATTRS)
  ∧ (keys (f.formatCore rd).1).Nodup := by
  refine ⟨?_, ?_, ?_, ?_⟩
  · intro h
    have hm : mergeable f.skip_fields k = false := by
      unfold mergeable
      rcases h with h | h
      · rw [(contains_iff_mem _ _).mpr h]
        rfl
      · rw [h]
        simp
    exact dGet_merge_not_mergeable _ _ _ _ hm
  · intro hnd hns hnu hmem
    have hm : mergeable f.skip_fields k = true := by
      unfold mergeable
      have hc : f.skip_fields.contains k = false := by
        cases hcase : f.skip_fields.contains k
        · rfl
        · exact absurd ((contains_iff_mem _ _).mp hcase) hns
      rw [hc, hnu]
      rfl
    exact dGet_merge_mergeable _ _ _ _ _ hnd hm hmem
  · unfold JsonFormatter.skip_fields
    exact List.mem_append
  · rw [formatCore_fst]
    exact nodup_keys_add_fields _ _ _

/-- Witness for C7: a reserved name is untouched, a genuine extra is merged,
the `skip_fields` decomposition holds at `"message"`, and the assembled
mapping for a concrete record has no duplicate keys. -/
theorem C7_extras_filtered_witness :
    dGet (merge_record_extra rdC7 [("message", PyVal.str "m")]
        fmtA.skip_fields) "levelname" =
      dGet [("message", PyVal.str "m")] "levelname"
  ∧ dGet (merge_record_extra rdC7 [("message", PyVal.str "m")]
        fmtA.skip_fields) "user" = .str "bob"
  ∧ ("message" ∈ fmtA.skip_fields ↔
      "message" ∈ fmtA.required_fields ∨ "message" ∈ RESERVED_ATTRS)
  ∧ (keys (fmtA.formatCore rdC7).1).Nodup :=
  ⟨(C7_extras_filtered fmtA rdC7 [("message", PyVal.str "m")] rdC7
      "levelname" PyVal.none).1 (Or.inl (by decide)),
   (C7_extras_filtered fmtA rdC7 [("message", PyVal.str "m")] rdC7 "user"
      (.str "bob")).2.1 (by decide) (by decide) (by decide) rfl,
   (C7_extras_filtered fmtA rdC7 [("message", PyVal.str "m")] rdC7
      "message" PyVal.none).2.2.1,
   (C7_extras_filtered fmtA rdC7 [("message", PyVal.str "m")] rdC7 "x"
      PyVal.none).2.2.2⟩

/-- C8 counterexample: the claim's "the emitted `exc_info` value is always a
single string" is false — when the payload itself supplies a truthy
structured `exc_info`, the code keeps it (by design: "allow overriding it in
the user-supplied dict"), and the emitted value is a nested object even
though exception info is attached to the record. -/
theorem C8_counterexample_structured_payload_exc_info :
    truthy (dGet rdC8 "exc_info") = true
  ∧ dGet (fmtA.formatCore rdC8).1 "exc_info" =
      .dict [("type", .str "ValueError")]
  ∧ (dGet (fmtA.formatCore rdC8).1 "exc_info").isStr = false :=
  ⟨rfl, rfl, rfl⟩

/-- C8 (amended): when the payload's own `exc_info` is falsy, attached
exception info is rendered to text and emitted under `exc_info` as a single
string; when there is no exception info but cached `exc_text` exists (and
the payload's `exc_info` is falsy), that cached text is emitted; but a
truthy payload-supplied `exc_info` is emitted unchanged, so only the values
the formatter itself stores are guaranteed to be strings. -/
theorem C8_amended_exc_info_handling (f : JsonFormatter)
    (rd : List (String × PyVal)) (t s : String)
    (hnd : (keys (msgPayload rd)).Nodup) :
    (dGet rd "exc_info" = PyVal.excInfo t → t.isEmpty = false →
       truthy (dGet (msgPayload rd) "exc_info") = false →
       dGet (f.formatCore rd).1 "exc_info" = .str t)
  ∧ (truthy (dGet rd "exc_info") = false →
       truthy (dGet (msgPayload rd) "exc_info") = false →
       dGet rd "exc_text" = PyVal.str s → s.isEmpty = false →
       dGet (f.formatCore rd).1 "exc_info" = .str s)
  ∧ (truthy (dGet (msgPayload rd) "exc_info") = true →
       dGet (f.formatCore rd).1 "exc_info" =
         dGet (msgPayload rd) "exc_info") := by
  have hresv : mergeable f.skip_fields "exc_info" = false :=
    mergeable_skip_of_reserved f _ (by decide)
  refine ⟨?_, ?_, ?_⟩
  · intro hexc ht hpay
    have hmd2 := format_md2_rendered f rd t ht hexc hpay
    rw [formatCore_fst]
    refine dGet_add_fields_payload f _ _ _ _ hresv ?_ ?_
    · rw [hmd2]
      exact nodup_keys_dSet _ _ _ hnd
    · rw [hmd2]
      exact alookup_dSet_self _ _ _
  · intro hexc hpay htext hs
    have hmd2 := format_md2_cached f rd s hs hexc hpay htext
    rw [formatCore_fst]
    refine dGet_add_fields_payload f _ _ _ _ hresv ?_ ?_
    · rw [hmd2]
      exact nodup_keys_dSet _ _ _ hnd
    · rw [hmd2]
      exact alookup_dSet_self _ _ _
  · intro hpay
    have hmd2 := format_md2_payload_wins f rd hpay
    rw [formatCore_fst]
    refine dGet_add_fields_payload f _ _ _ _ hresv ?_ ?_
    · rw [hmd2]
      exact hnd
    · rw [hmd2]
      exact alookup_of_truthy _ _ hpay

/-- Witness for C8 (amended): the rendered traceback is emitted as a string;
cached `exc_text` is emitted when no exception info is attached; a
payload-supplied structured `exc_info` passes through unchanged. -/
theorem C8_amended_exc_info_handling_witness :
    dGet (fmtA.formatCore rdC10).1 "exc_info" = .str "Traceback: boom"
  ∧ dGet (fmtA.formatCore rdC8b).1 "exc_info" = .str "cached trace"
  ∧ dGet (fmtA.formatCore rdC8).1 "exc_info" =
      dGet (msgPayload rdC8) "exc_info" :=
  ⟨(C8_amended_exc_info_handling fmtA rdC10 "Traceback: boom" ""
      (by decide)).1 rfl (by decide) rfl,
   (C8_amended_exc_info_handling fmtA rdC8b "" "cached trace"
      (by decide)).2.1 rfl rfl rfl (by decide),
   (C8_amended_exc_info_handling fmtA rdC8 "" "" (by decide)).2.2 rfl⟩

/-- C10: `format` mutates state outside its return value.  The post-call
`record.__dict__` has `message` set (to `None` for a dict message, to
`record.getMessage()` otherwise); when `"asctime"` is required, `asctime` is
set to the formatted time; when the message is a dict, `record.msg` is the
*same* mapping as the message payload, so after the call it is the payload
as updated by the formatter — in particular the rendered `exc_info` entry
has been inserted into the caller's original mapping. -/
theorem C10_format_mutates_record (f : JsonFormatter)
    (rd entries : List (String × PyVal)) (t : String) :
    dGet (f.format rd).2 "message" =
      (if msgIsDict rd then PyVal.none else getMessage rd)
  ∧ ("asctime" ∈ f.required_fields →
       dGet (f.format rd).2 "asctime" = .str (f.formatTime (format_rd1 rd)))
  ∧ (dGet rd "msg" = .dict entries →
       dGet (f.format rd).2 "msg" = .dict (format_md2 f rd))
  ∧ (dGet rd "msg" = .dict entries → dGet rd "exc_info" = PyVal.excInfo t →
       t.isEmpty = false → truthy (dGet entries "exc_info") = false →
       dGet (f.format rd).2 "msg" =
         .dict (dSet entries "exc_info" (.str t))) := by
  refine ⟨?_, ?_, ?_, ?_⟩
  · rw [format_snd]
    exact dGet_format_rd3_message f rd
  · intro h
    rw [format_snd]
    exact dGet_format_rd3_asctime f rd ((contains_iff_mem _ _).mpr h)
  · intro hmsg
    have hdict : msgIsDict rd = true := by
      unfold msgIsDict
      rw [hmsg]
    rw [format_snd]
    unfold format_rd3
    rw [if_pos hdict, dGet_dSet_self]
  · intro hmsg hexc ht hpayt
    have hdict : msgIsDict rd = true := by
      unfold msgIsDict
      rw [hmsg]
    have hP : msgPayload rd = entries := by
      unfold msgPayload
      rw [hmsg]
    have hpay : truthy (dGet (msgPayload rd) "exc_info") = false := by
      rw [hP]
      exact hpayt
    have hmd2 := format_md2_rendered f rd t ht hexc hpay
    rw [format_snd]
    unfold format_rd3
    rw [if_pos hdict, dGet_dSet_self, hmd2, hP]

/-- Witness for C10: dict message with attached exception — the record's
`message` is nulled, `asctime` is written, and the caller's message mapping
now contains the rendered `exc_info`; plain message — `message` is set to
the rendered text. -/
theorem C10_format_mutates_record_witness :
    dGet (fmtB.format rdC10).2 "message" = PyVal.none
  ∧ dGet (fmtB.format rdC10).2 "asctime" =
      .str "2020-03-14 00:00:00,123"
  ∧ dGet (fmtA.format rdC10).2 "msg" =
      .dict [("user", .str "alice"), ("exc_info", .str "Traceback: boom")]
  ∧ dGet (fmtA.format rdC10b).2 "message" = .str "hello" :=
  ⟨(C10_format_mutates_record fmtB rdC10 [] "").1,
   (C10_format_mutates_record fmtB rdC10 [] "").2.1 (by decide),
   (C10_format_mutates_record fmtA rdC10 [("user", PyVal.str "alice")]
      "Traceback: boom").2.2.2 rfl rfl (by decide) rfl,
   (C10_format_mutates_record fmtA rdC10b [] "").1⟩

/-! ## Parser correctness (C9) -/

theorem string_data_append (a b : String) :
    (a ++ b).data = a.data ++ b.data := by
  cases a
  cases b
  rfl

theorem string_eta (s : String) : String.mk s.data = s := by
  cases s
  rfl

theorem isEmpty_false_of_ne_nil {α : Type} (l : List α) (h : l ≠ []) :
    l.isEmpty = false := by
  cases l with
  | nil => exact absurd rfl h
  | cons a as => rfl

theorem findall_cons_none (c : Char) (cs : List Char) :
    findall Option.none (c :: cs) =
      if c = '(' then findall (some []) cs else findall Option.none cs := rfl

theorem findall_cons_some (acc : List Char) (c : Char) (cs : List Char) :
    findall (some acc) (c :: cs) =
      if c = ')' then
        (if acc.isEmpty then findall (some [c]) cs
         else String.mk acc.reverse :: findall Option.none cs)
      else if c = '\n' then findall Option.none cs
      else findall (some (c :: acc)) cs := rfl

theorem findall_skip (l t : List Char) (h : ∀ c ∈ l, c ≠ '(') :
    findall Option.none (l ++ t) = findall Option.none t := by
  induction l with
  | nil => rfl
  | cons c cs ih =>
    rw [List.cons_append, findall_cons_none,
      if_neg (h c (List.mem_cons_self _ _))]
    exact ih (fun x hx => h x (List.mem_cons_of_mem _ hx))

theorem findall_group (content : List Char) (acc t : List Char)
    (hc : ∀ c ∈ content, c ≠ ')' ∧ c ≠ '\n')
    (hne : acc ≠ [] ∨ content ≠ []) :
    findall (some acc) (content ++ ')' :: t) =
      String.mk (acc.reverse ++ content) :: findall Option.none t := by
  induction content generalizing acc with
  | nil =>
    rcases hne with h | h
    · rw [List.nil_append, findall_cons_some, if_pos rfl,
        if_neg (by rw [isEmpty_false_of_ne_nil _ h]; exact Bool.false_ne_true),
        List.append_nil]
    · exact absurd rfl h
  | cons c cs ih =>
    obtain ⟨h1, h2⟩ := hc c (List.mem_cons_self _ _)
    rw [List.cons_append, findall_cons_some, if_neg h1, if_neg h2,
      ih (c :: acc) (fun x hx => hc x (List.mem_cons_of_mem _ hx))
        (Or.inl (by simp))]
    congr 2
    rw [List.reverse_cons, List.append_assoc]
    rfl

theorem parse_render (segs : List Seg) (hok : ∀ s ∈ segs, segOk s) :
    findall Option.none (renderSegs segs).data = segFields segs := by
  induction segs with
  | nil => rfl
  | cons s rest ih =>
    have hs := hok s (List.mem_cons_self _ _)
    have hrest := fun x hx => hok x (List.mem_cons_of_mem _ hx)
    cases s with
    | lit l =>
      rw [show renderSegs (Seg.lit l :: rest) = l ++ renderSegs rest
            from rfl,
        string_data_append, findall_skip _ _ hs, ih hrest]
      rfl
    | field n =>
      obtain ⟨hne, hchars⟩ := hs
      rw [show renderSegs (Seg.field n :: rest) =
            ("(" ++ n ++ ")") ++ renderSegs rest from rfl,
        string_data_append, string_data_append, string_data_append,
        show ("(" : String).data = ['('] from rfl,
        show (")" : String).data = [')'] from rfl,
        show ((['('] ++ n.data) ++ [')']) ++ (renderSegs rest).data =
          '(' :: (n.data ++ ')' :: (renderSegs rest).data) from by simp,
        findall_cons_none, if_pos rfl,
        findall_group _ _ _ hchars (Or.inr hne), ih hrest,
        show ([] : List Char).reverse ++ n.data = n.data from rfl,
        string_eta]
      rfl

/-- C9: `parse` returns exactly the parenthesised field names of the format
pattern in first-seen order — proved for every pattern assembled from
literal segments (containing no `(`) and field groups `(<name>)` with
nonempty names free of `)` and newlines, which is the class of patterns on
which "the field names enclosed in parentheses" is well defined; and a
pattern with no `(` at all is not an error: it yields the empty
required-fields list. -/
theorem C9_parse_extracts_field_names (f g : JsonFormatter)
    (segs : List Seg) (hok : ∀ s ∈ segs, segOk s)
    (hfmt : f.fmt = renderSegs segs)
    (hnp : ∀ c ∈ g.fmt.data, c ≠ '(') :
    f.parse = segFields segs ∧ g.parse = [] ∧ g.required_fields = [] := by
  have hg : g.parse = [] := by
    unfold JsonFormatter.parse
    have h := findall_skip g.fmt.data [] hnp
    rw [List.append_nil] at h
    exact h
  refine ⟨?_, hg, hg⟩
  unfold JsonFormatter.parse
  rw [hfmt]
  exact parse_render segs hok

/-- Witness for C9: the three-field pattern of the spec's scenario parses to
its field names, and a pattern without parentheses yields no required
fields. -/
theorem C9_parse_extracts_field_names_witness :
    fmtB.parse = ["asctime", "levelname", "message"]
  ∧ fmtNoFields.parse = [] ∧ fmtNoFields.required_fields = [] :=
  C9_parse_extracts_field_names fmtB fmtNoFields segsC9
    (by
      intro s hs
      fin_cases hs <;> simp only [segOk] <;> exact (by decide))
    rfl (by decide)
